import Mathlib

/-!
Verification of the gusto-api marketplace backend (TypeScript/Express/Prisma)
against its natural-language specification.

The embedding models the relational store as explicit lists of rows and each
HTTP handler as a pure function from a database state (plus the authenticated
caller and request body) to a new state and a response.  Numeric columns
(balance, price, commissionRate, rating) are embedded as rationals; JS float
peculiarities (NaN, rounding of binary doubles) are outside the claims
considered here.  Error responses are modelled structurally: an HTTP status
code plus a message tag carrying the data the rendered string interpolates.
-/

namespace Gusto

/-- Row identifiers (UUIDs in the source) are embedded as naturals. -/
abbrev Ident := Nat

inductive UserType
  | PROVIDER
  | RECEIVER
deriving DecidableEq, Repr

inductive DemandStatus
  | ACTIVE
  | CLOSED
  | COMPLETED
  | CANCELLED
deriving DecidableEq, Repr

inductive OfferStatus
  | PENDING
  | ACCEPTED
  | REJECTED
  | COMPLETED
deriving DecidableEq, Repr

/-- A Category row: a node of the category tree (`parentId` is the
nullable self-reference), with the nullable per-mille `commissionRate`. -/
structure Category where
  id : Ident
  name : String
  parentId : Option Ident
  commissionRate : Option ℚ
deriving DecidableEq, Repr

/-- A User row with the columns the modelled handlers read, plus the
subscribed category ids (the user's UserCategory rows, as Prisma's
`include: { categories }` delivers them). -/
structure User where
  id : Ident
  userType : UserType
  balance : ℚ
  rating : ℚ
  ratingCount : Nat
  categories : List Ident
deriving DecidableEq, Repr

structure Demand where
  id : Ident
  userId : Ident
  categoryId : Ident
  status : DemandStatus
  isApproved : Bool
deriving DecidableEq, Repr

structure Offer where
  id : Ident
  demandId : Ident
  providerId : Ident
  message : Option String
  price : ℚ
  estimatedTime : String
  status : OfferStatus
  providerCompleted : Bool
  isApproved : Bool
deriving DecidableEq, Repr

structure Review where
  id : Ident
  reviewerId : Ident
  reviewedUserId : Ident
  rating : ℚ
deriving DecidableEq, Repr

/-- A Notification row; only the addressee and the `type` tag matter to the
claims, the title/message strings are not modelled. -/
structure Notification where
  userId : Ident
  ntype : String
deriving DecidableEq, Repr

/-- The relational store. -/
structure DB where
  users : List User
  categories : List Category
  demands : List Demand
  offers : List Offer
  reviews : List Review
  notifications : List Notification
deriving DecidableEq, Repr

/-- `prisma.demand.findUnique({ where: { id } })`. -/
def findDemand (db : DB) (did : Ident) : Option Demand :=
  db.demands.find? fun d => d.id == did

/-- `prisma.user.findUnique({ where: { id } })`. -/
def findUser (db : DB) (uid : Ident) : Option User :=
  db.users.find? fun u => u.id == uid

/-- `prisma.offer.findUnique({ where: { id } })`. -/
def findOffer (db : DB) (oid : Ident) : Option Offer :=
  db.offers.find? fun o => o.id == oid

/-- The join on `demand.categoryId` that Prisma's `include: { category }`
performs. -/
def findCategory (db : DB) (cid : Ident) : Option Category :=
  db.categories.find? fun c => c.id == cid

/-- JS `x || d` on a nullable number: null/undefined and 0 are falsy. -/
def jsOr (x : Option ℚ) (d : ℚ) : ℚ :=
  match x with
  | none => d
  | some v => if v = 0 then d else v

/-- JS `Number.prototype.toFixed(2)` on the exact rational value: round to
the nearest multiple of 1/100, ties to the larger candidate. -/
def toFixed2 (q : ℚ) : ℚ :=
  (round (q * 100) : ℚ) / 100

/-- `const commissionRate = demand.category?.commissionRate || 0;`
`const commissionAmount = (parsedPrice / 1000) * commissionRate;` -/
def commissionFor (db : DB) (d : Demand) (price : ℚ) : ℚ :=
  price / 1000 * jsOr ((findCategory db d.categoryId).bind Category.commissionRate) 0

/-- Message tags of the `AppError`s the modelled handlers raise.  The
insufficient-balance tag carries the two `toFixed(2)` numbers interpolated
into the rendered Turkish message. -/
inductive ErrMsg
  | validation
  | demandNotFound
  | inactiveDemand
  | duplicateOffer
  | providerNotFound
  | insufficientBalance (required : ℚ) (available : ℚ)
  | offerNotFound
  | notAuthorized
  | notApprovedYet
  | noPermission
  | onlyProviderCanComplete
  | onlyAcceptedCanComplete
  | alreadyCompleted
  | selfReview
  | userNotFound
  | duplicateReview
  | reviewNotFound
  | internal
deriving DecidableEq, Repr

/-- The Offer row `tx.offer.create` inserts.
Modelled from the spec: the Prisma schema file is not among the sources, so
the `status` column's default comes from the spec's "insert Offer row with
status implicitly pending" — the row starts at `PENDING` with
`providerCompleted = false`; `isApproved := true` is explicit in the code. -/
def mkOffer (oid did pid : Ident) (msg : Option String) (price : ℚ) (est : String) : Offer :=
  { id := oid, demandId := did, providerId := pid, message := msg, price := price,
    estimatedTime := est, status := .PENDING, providerCompleted := false, isApproved := true }

inductive OfferCreateResult
  | success (db : DB) (offer : Offer) (commissionAmount newBalance : ℚ)
  | failure (code : Nat) (msg : ErrMsg)
deriving DecidableEq, Repr

/-- The POST /api/offers handler body (offers.ts), after validation:
check demand exists and is ACTIVE, no prior offer by this provider,
provider exists, balance covers the commission; then in one transaction
decrement the balance and insert the offer.  The transaction is the single
state update of the `success` branch.  `oid` is the id the insert assigns. -/
def createOffer (db : DB) (pid did : Ident) (price : ℚ) (msg : Option String)
    (est : String) (oid : Ident) : OfferCreateResult :=
  match findDemand db did with
  | none => .failure 404 .demandNotFound
  | some demand =>
    if demand.status ≠ .ACTIVE then .failure 400 .inactiveDemand
    else match db.offers.find? (fun o => o.demandId == did && o.providerId == pid) with
    | some _ => .failure 400 .duplicateOffer
    | none =>
      match findUser db pid with
      | none => .failure 404 .providerNotFound
      | some provider =>
        let commissionAmount := commissionFor db demand price
        if provider.balance < commissionAmount then
          .failure 400 (.insufficientBalance (toFixed2 commissionAmount) (toFixed2 provider.balance))
        else
          let offer := mkOffer oid did pid msg price est
          let db2 : DB :=
            { db with
              users := db.users.map fun u =>
                if u.id == pid then { u with balance := u.balance - commissionAmount } else u,
              offers := db.offers ++ [offer] }
          .success db2 offer commissionAmount (provider.balance - commissionAmount)

/-- The HTTP response the client sees from POST /api/offers: 201 Created
with the payload, or an error status from the centralized error responder. -/
inductive HttpResp
  | created (offer : Offer) (commissionAmount newBalance : ℚ)
  | error (code : Nat) (msg : ErrMsg)
deriving DecidableEq, Repr

/-- The full POST /api/offers request flow including the post-transaction
notification insert.  `notifInsertOk` says whether
`prisma.notification.create` succeeds.  The insert is awaited inside the
handler's try block, so when it throws, the error reaches the centralized
responder (status 500 for a non-AppError) while the already-committed
transaction state stands. -/
def createOfferFlow (db : DB) (pid did : Ident) (price : ℚ) (msg : Option String)
    (est : String) (oid : Ident) (notifInsertOk : Bool) : DB × HttpResp :=
  match createOffer db pid did price msg est oid with
  | .failure code m => (db, .error code m)
  | .success db2 offer comm newBal =>
    match findDemand db did with
    | none => (db2, .error 500 .internal)
    | some demand =>
      if notifInsertOk then
        ({ db2 with notifications := db2.notifications ++ [⟨demand.userId, "NEW_OFFER"⟩] },
          .created offer comm newBal)
      else
        (db2, .error 500 .internal)

inductive OfferUpdateResult
  | success (db : DB) (offer : Offer)
  | failure (code : Nat) (msg : ErrMsg)
deriving DecidableEq, Repr

/-- PATCH /api/offers/:id/status (offers.ts): the demand owner accepts or
rejects an offer.  The validator admits only ACCEPTED/REJECTED; ownership is
the only other guard — the offer's current status is never examined.  On
ACCEPTED the parent demand is closed by a separate update statement. -/
def updateOfferStatus (db : DB) (callerId oid : Ident) (status : OfferStatus) :
    OfferUpdateResult :=
  if status ≠ .ACCEPTED ∧ status ≠ .REJECTED then .failure 400 .validation
  else match findOffer db oid with
  | none => .failure 404 .offerNotFound
  | some offer =>
    let ownerOk := match findDemand db offer.demandId with
      | some demand => demand.userId == callerId
      | none => false
    if !ownerOk then .failure 403 .notAuthorized
    else
      let db2 : DB := { db with
        offers := db.offers.map fun o => if o.id == oid then { o with status := status } else o }
      let db3 : DB := { db2 with
        notifications := db2.notifications ++ [⟨offer.providerId, "OFFER_STATUS"⟩] }
      let db4 : DB :=
        if status = .ACCEPTED then
          { db3 with demands := db3.demands.map fun d =>
              if d.id == offer.demandId then { d with status := .CLOSED } else d }
        else db3
      .success db4 { offer with status := status }

/-- The partial update body of PATCH /api/offers/:id (admin panel): each
present field is copied into the update. -/
structure AdminOfferPatch where
  message : Option (Option String)
  price : Option ℚ
  estimatedTime : Option String
  status : Option OfferStatus
deriving DecidableEq, Repr

def applyAdminPatch (p : AdminOfferPatch) (o : Offer) : Offer :=
  let o := match p.message with | none => o | some m => { o with message := m }
  let o := match p.price with | none => o | some v => { o with price := v }
  let o := match p.estimatedTime with | none => o | some t => { o with estimatedTime := t }
  match p.status with | none => o | some s => { o with status := s }

/-- PATCH /api/offers/:id (offers.ts, admin panel): look the offer up, then
apply whichever of message/price/estimatedTime/status the body carries.  No
role check and no guard on the current status. -/
def adminUpdateOffer (db : DB) (oid : Ident) (p : AdminOfferPatch) : OfferUpdateResult :=
  match findOffer db oid with
  | none => .failure 404 .offerNotFound
  | some offer =>
    .success
      { db with offers := db.offers.map fun o =>
          if o.id == oid then applyAdminPatch p o else o }
      (applyAdminPatch p offer)

/-- PATCH /api/offers/:id/complete (offers.ts): only the offer's provider,
only from status ACCEPTED, only once (`providerCompleted` guard); sets
`providerCompleted` and status COMPLETED, then notifies the demand owner
(`offer.demand!.userId` — a missing demand would crash, modelled as 500). -/
def completeOffer (db : DB) (callerId oid : Ident) : OfferUpdateResult :=
  match findOffer db oid with
  | none => .failure 404 .offerNotFound
  | some offer =>
    if offer.providerId ≠ callerId then .failure 403 .onlyProviderCanComplete
    else if offer.status ≠ .ACCEPTED then .failure 400 .onlyAcceptedCanComplete
    else if offer.providerCompleted then .failure 400 .alreadyCompleted
    else match findDemand db offer.demandId with
      | none => .failure 500 .internal
      | some demand =>
        let upd := fun (o : Offer) => { o with providerCompleted := true, status := OfferStatus.COMPLETED }
        .success
          { db with
            offers := db.offers.map fun o => if o.id == oid then upd o else o,
            notifications := db.notifications ++ [⟨demand.userId, "OFFER_COMPLETED"⟩] }
          (upd offer)

inductive DemandFetchResult
  | success (d : Demand)
  | failure (code : Nat) (msg : ErrMsg)
deriving DecidableEq, Repr

/-- GET /api/demands/:id (demands.ts): 404 if absent; 403 if not yet
approved (before any look at who is asking); then, when the requester has
at least one subscribed category, 403 unless the demand's categoryId is
among those directly subscribed ids. -/
def getDemandById (db : DB) (requesterId did : Ident) : DemandFetchResult :=
  match findDemand db did with
  | none => .failure 404 .demandNotFound
  | some demand =>
    if !demand.isApproved then .failure 403 .notApprovedYet
    else
      match findUser db requesterId with
      | some u =>
        if u.categories.length > 0 ∧ demand.categoryId ∉ u.categories then
          .failure 403 .noPermission
        else .success demand
      | none => .success demand

/-- `prisma.category.findMany({ where: { parentId: cid }, select: { id } })`. -/
def childIdsOf (cats : List Category) (cid : Ident) : List Ident :=
  (cats.filter fun c => c.parentId == some cid).map fun c => c.id

/-- The recursive helper `getAllChildCategoryIds` of the GET /api/demands
handler: the id itself followed by the recursively collected ids of every
child.  The source recursion has no fuel (it terminates because the stored
category tree is acyclic); the embedding adds an explicit `fuel` bound and
the theorems assume it exceeds every chain length. -/
def getAllChildCategoryIds (cats : List Category) : Nat → Ident → List Ident
  | 0, cid => [cid]
  | fuel + 1, cid => cid :: (childIdsOf cats cid).flatMap (getAllChildCategoryIds cats fuel)

/-- JS `[...new Set(l)]`: de-duplicate keeping the first occurrence. -/
def dedupFirst : List Ident → List Ident
  | [] => []
  | x :: xs => x :: dedupFirst (xs.filter fun y => y ≠ x)
termination_by l => l.length
decreasing_by
  simp only [List.length_cons]
  exact Nat.lt_succ_of_le (List.length_filter_le _ _)

/-- The allowed-category set of the GET /api/demands handler: every
subscribed id's recursive closure, concatenated, then de-duplicated. -/
def allowedCategoryIds (cats : List Category) (fuel : Nat) (subscribed : List Ident) :
    List Ident :=
  dedupFirst (subscribed.flatMap (getAllChildCategoryIds cats fuel))

/-- The query-parameter lookup
`prisma.category.findFirst({ where: { OR: [{ id: q }, { name: q }] } })`. -/
def findCategoryByIdOrName (cats : List Category) (q : String) : Option Category :=
  cats.find? fun c => toString c.id == q || c.name == q

/-- The `where` object the GET /api/demands handler assembles. -/
structure DemandWhere where
  categoryIn : Option (List Ident)
  status : Option DemandStatus
  isApproved : Option Bool
deriving DecidableEq, Repr

/-- Query parameters of GET /api/demands relevant to the modelled claims
(pagination is dropped: it slices the result, it does not filter it). -/
structure DemandQuery where
  category : Option String
  status : Option DemandStatus
deriving DecidableEq, Repr

/-- The filter-construction logic of GET /api/demands (demands.ts): a
provider with at least one subscription is restricted to the recursive
closure of their subscribed categories; everyone else gets only the
explicit query filters; providers additionally only see approved demands. -/
def buildDemandWhere (db : DB) (user : Option User) (q : DemandQuery) (fuel : Nat) :
    DemandWhere :=
  let categoryIn :=
    match user with
    | some u =>
      if u.userType = .PROVIDER ∧ u.categories.length > 0 then
        let allowed := allowedCategoryIds db.categories fuel u.categories
        match q.category with
        | some qc =>
          match findCategoryByIdOrName db.categories qc with
          | some c => if c.id ∈ allowed then some [c.id] else some []
          | none => some []
        | none => some allowed
      else
        match q.category with
        | some qc =>
          match findCategoryByIdOrName db.categories qc with
          | some c => some [c.id]
          | none => none
        | none => none
    | none =>
      match q.category with
      | some qc =>
        match findCategoryByIdOrName db.categories qc with
        | some c => some [c.id]
        | none => none
      | none => none
  let isApproved :=
    match user with
    | some u => if u.userType = .PROVIDER then some true else none
    | none => none
  ⟨categoryIn, q.status, isApproved⟩

def demandMatches (w : DemandWhere) (d : Demand) : Bool :=
  (match w.categoryIn with | none => true | some l => d.categoryId ∈ l) &&
  (match w.status with | none => true | some s => d.status == s) &&
  (match w.isApproved with | none => true | some b => d.isApproved == b)

/-- GET /api/demands: the set of demand rows the assembled `where` filter
admits (the handler then paginates and decorates them). -/
def listDemands (db : DB) (uid : Ident) (q : DemandQuery) (fuel : Nat) : List Demand :=
  db.demands.filter (demandMatches (buildDemandWhere db (findUser db uid) q fuel))

inductive ReviewResult
  | success (db : DB)
  | failure (code : Nat) (msg : ErrMsg)
deriving DecidableEq, Repr

/-- `prisma.review.findMany({ where: { reviewedUserId } })`. -/
def reviewsFor (db : DB) (uid : Ident) : List Review :=
  db.reviews.filter fun r => r.reviewedUserId == uid

/-- `reviews.reduce((sum, r) => sum + r.rating, 0)`. -/
def ratingSum (l : List Review) : ℚ :=
  (l.map Review.rating).sum

/-- Writes `rating`/`ratingCount` of the reviewed user the way both review
handlers do after recomputing. -/
def setUserRating (db : DB) (uid : Ident) (rating : ℚ) (count : Nat) : DB :=
  { db with users := db.users.map fun u =>
      if u.id == uid then { u with rating := rating, ratingCount := count } else u }

/-- POST /api/reviews (reviews.ts): self-review and duplicate guards, user
existence, insert, then recompute the reviewed user's mean rating over all
their received reviews (the fresh one included, so the list is non-empty). -/
def createReview (db : DB) (reviewerId reviewedUserId : Ident) (rating : ℚ)
    (newId : Ident) : ReviewResult :=
  if reviewerId == reviewedUserId then .failure 400 .selfReview
  else match findUser db reviewedUserId with
  | none => .failure 404 .userNotFound
  | some _ =>
    match db.reviews.find? (fun r => r.reviewerId == reviewerId && r.reviewedUserId == reviewedUserId) with
    | some _ => .failure 400 .duplicateReview
    | none =>
      let db2 : DB := { db with reviews := db.reviews ++ [⟨newId, reviewerId, reviewedUserId, rating⟩] }
      let revs := reviewsFor db2 reviewedUserId
      .success (setUserRating db2 reviewedUserId (ratingSum revs / revs.length) revs.length)

/-- DELETE /api/reviews/:id (reviews.ts): delete, then recompute — the mean
when reviews remain, 0 when none do. -/
def deleteReview (db : DB) (rid : Ident) : ReviewResult :=
  match db.reviews.find? (fun r => r.id == rid) with
  | none => .failure 404 .reviewNotFound
  | some review =>
    let db2 : DB := { db with reviews := db.reviews.filter fun r => r.id ≠ rid }
    let revs := reviewsFor db2 review.reviewedUserId
    let avg := if revs.length > 0 then ratingSum revs / revs.length else 0
    .success (setUserRating db2 review.reviewedUserId avg revs.length)

/-! ## Spec-side predicates (from the spec's words, for comparison) -/

/-- Spec-side: category `child` is a direct child of `parent` in the
stored tree. -/
def isChildCat (cats : List Category) (parent child : Ident) : Prop :=
  ∃ c ∈ cats, c.id = child ∧ c.parentId = some parent

/-- Spec-side: a descending path of exactly `n` parent-to-child steps from
`a` to `b`. -/
def reachN (cats : List Category) : Nat → Ident → Ident → Prop
  | 0, a, b => b = a
  | n + 1, a, b => ∃ m, isChildCat cats a m ∧ reachN cats n m b

/-- Spec-side: `b` is `a` itself or one of its transitive descendants
(child, grandchild, ...). -/
def descendant (cats : List Category) (a b : Ident) : Prop :=
  ∃ n, reachN cats n a b

/-! ## Result-inspection helpers and concrete stores for the witnesses -/

def updateResultDB : OfferUpdateResult → Option DB
  | .success db _ => some db
  | .failure _ _ => none

def reviewResultDB : ReviewResult → Option DB
  | .success db => some db
  | .failure _ _ => none

/-- The status of a stored offer. -/
def offerStatusIn (db : DB) (oid : Ident) : Option OfferStatus :=
  (findOffer db oid).map Offer.status

/-- The status of a stored demand. -/
def demandStatusIn (db : DB) (did : Ident) : Option DemandStatus :=
  (findDemand db did).map Demand.status

/-- The stored aggregate rating of a user. -/
def userRatingIn (db : DB) (uid : Ident) : Option (ℚ × Nat) :=
  (findUser db uid).map fun u => (u.rating, u.ratingCount)

def exProvider : User := ⟨7, .PROVIDER, 100, 0, 0, []⟩

def exReceiver : User := ⟨10, .RECEIVER, 0, 0, 0, []⟩

def exCat : Category := ⟨1, "Music", none, some 10⟩

def exDemand : Demand := ⟨100, 10, 1, .ACTIVE, true⟩

def exDB : DB := ⟨[exProvider, exReceiver], [exCat], [exDemand], [], [], []⟩

/-- A category tree for the closure witnesses: A(1) with children B(2) and
C(3), grandchild D(4) under B, and an unrelated root E(5). -/
def exCats : List Category :=
  [⟨1, "A", none, none⟩, ⟨2, "B", some 1, none⟩, ⟨3, "C", some 1, none⟩,
   ⟨4, "D", some 2, none⟩, ⟨5, "E", none, none⟩]

/-- A ranking showing `exCats` has no chain longer than 2. -/
def exRank (i : Ident) : Nat :=
  if i = 1 then 2 else if i = 2 ∨ i = 3 then 1 else 0

/-- Store for the accept/reject claims: receiver 10 owns ACTIVE demand 100
with a PENDING offer 1 by provider 7 and a PENDING offer 2 by provider 8. -/
def exDB4 : DB :=
  ⟨[⟨7, .PROVIDER, 0, 0, 0, []⟩, ⟨8, .PROVIDER, 0, 0, 0, []⟩, ⟨10, .RECEIVER, 0, 0, 0, []⟩],
   [exCat],
   [exDemand],
   [⟨1, 100, 7, none, 50, "1h", .PENDING, false, true⟩,
    ⟨2, 100, 8, none, 60, "2h", .PENDING, false, true⟩],
   [], []⟩

/-- Store for the status-machine counterexample: offer 1 already ACCEPTED. -/
def exDB5 : DB :=
  ⟨[⟨7, .PROVIDER, 0, 0, 0, []⟩, ⟨10, .RECEIVER, 0, 0, 0, []⟩],
   [exCat],
   [exDemand],
   [⟨1, 100, 7, none, 50, "1h", .ACCEPTED, false, true⟩],
   [], []⟩

/-- The store after `completeOffer exDB5 7 1`. -/
def exDB5c : DB :=
  ⟨[⟨7, .PROVIDER, 0, 0, 0, []⟩, ⟨10, .RECEIVER, 0, 0, 0, []⟩],
   [exCat],
   [exDemand],
   [⟨1, 100, 7, none, 50, "1h", .COMPLETED, true, true⟩],
   [], [⟨10, "OFFER_COMPLETED"⟩]⟩

/-- Store for the single-demand category gate: provider 7 subscribed to
category 1, provider 8 to category 4; approved demand 100 sits under
grandchild category 4. -/
def exDB6 : DB :=
  ⟨[⟨7, .PROVIDER, 0, 0, 0, [1]⟩, ⟨8, .PROVIDER, 0, 0, 0, [4]⟩, ⟨10, .RECEIVER, 0, 0, 0, []⟩],
   exCats,
   [⟨100, 10, 4, .ACTIVE, true⟩],
   [], [], []⟩

/-- Store for the zero-subscription fallback: provider 7 has no
subscriptions; approved demands live under categories 1 and 5, and an
unapproved one under 2. -/
def exDB7 : DB :=
  ⟨[⟨7, .PROVIDER, 0, 0, 0, []⟩, ⟨10, .RECEIVER, 0, 0, 0, []⟩],
   exCats,
   [⟨100, 10, 1, .ACTIVE, true⟩, ⟨101, 10, 5, .ACTIVE, true⟩, ⟨102, 10, 2, .ACTIVE, false⟩],
   [], [], []⟩

/-- Store for the rating recomputation: user 20 already has reviews with
ratings 5 and 3 (by users 30 and 31); user 32 will add a 4. -/
def exDB9 : DB :=
  ⟨[⟨20, .PROVIDER, 0, 4, 2, []⟩, ⟨30, .RECEIVER, 0, 0, 0, []⟩,
    ⟨31, .RECEIVER, 0, 0, 0, []⟩, ⟨32, .RECEIVER, 0, 0, 0, []⟩],
   [], [], [],
   [⟨201, 30, 20, 5⟩, ⟨202, 31, 20, 3⟩],
   []⟩

/-- The store after the committed offer-creation transaction on `exDB`
(balance debited by the commission, offer row appended). -/
def exDBpost : DB :=
  ⟨[⟨7, .PROVIDER, (100 : ℚ) - commissionFor exDB exDemand 7500, 0, 0, []⟩, exReceiver],
   [exCat],
   [exDemand],
   [mkOffer 500 100 7 none 7500 "2h"],
   [], []⟩

/-- The store after user 32 reviews user 20 with rating 4 on `exDB9`. -/
def exDB9c : DB :=
  ⟨[⟨20, .PROVIDER, 0, 4, 3, []⟩, ⟨30, .RECEIVER, 0, 0, 0, []⟩,
    ⟨31, .RECEIVER, 0, 0, 0, []⟩, ⟨32, .RECEIVER, 0, 0, 0, []⟩],
   [], [], [],
   [⟨201, 30, 20, 5⟩, ⟨202, 31, 20, 3⟩, ⟨203, 32, 20, 4⟩],
   []⟩

/-- The store after deleting the rating-3 review from `exDB9c`. -/
def exDB9d : DB :=
  ⟨[⟨20, .PROVIDER, 0, 9 / 2, 2, []⟩, ⟨30, .RECEIVER, 0, 0, 0, []⟩,
    ⟨31, .RECEIVER, 0, 0, 0, []⟩, ⟨32, .RECEIVER, 0, 0, 0, []⟩],
   [], [], [],
   [⟨201, 30, 20, 5⟩, ⟨203, 32, 20, 4⟩],
   []⟩

/-- Store for the approval gate: demand 100 owned by 10 is not approved. -/
def exDB10 : DB :=
  ⟨[⟨10, .RECEIVER, 0, 0, 0, []⟩],
   [exCat],
   [⟨100, 10, 1, .ACTIVE, false⟩],
   [], [], []⟩

/-! ## Generic lemmas about the list-based store -/

/-- A Prisma `update where id` embedded as a map leaves lookup of the target
id acting through the row transformer, provided the transformer keeps ids. -/
lemma find?_map_update {α : Type} (idOf : α → Ident) (g : α → α) (target : Ident)
    (hg : ∀ a, idOf (g a) = idOf a) (l : List α) :
    (l.map fun a => if idOf a == target then g a else a).find? (fun a => idOf a == target)
      = (l.find? fun a => idOf a == target).map g := by
  induction l with
  | nil => rfl
  | cons x xs ih =>
    simp only [List.map_cons]
    by_cases h : idOf x = target
    · have hpx : (idOf x == target) = true := by simpa using h
      have hpg : (idOf (g x) == target) = true := by rw [hg]; exact hpx
      rw [if_pos hpx]
      simp only [List.find?, hpg, hpx]
      rfl
    · have hpx : (idOf x == target) = false := by simpa using h
      rw [if_neg (by simp [hpx])]
      simp only [List.find?, hpx]
      exact ih

/-- Unfolding of `createOffer` once the demand lookup result is known. -/
lemma createOffer_found (db : DB) (pid did oid : Ident) (price : ℚ) (msg : Option String)
    (est : String) (d : Demand) (hd : findDemand db did = some d) :
    createOffer db pid did price msg est oid =
      (if d.status ≠ .ACTIVE then OfferCreateResult.failure 400 .inactiveDemand
       else match db.offers.find? (fun o => o.demandId == did && o.providerId == pid) with
       | some _ => .failure 400 .duplicateOffer
       | none =>
         match findUser db pid with
         | none => .failure 404 .providerNotFound
         | some provider =>
           if provider.balance < commissionFor db d price then
             .failure 400 (.insufficientBalance (toFixed2 (commissionFor db d price))
               (toFixed2 provider.balance))
           else
             .success
               { db with
                 users := db.users.map fun u =>
                   if u.id == pid then { u with balance := u.balance - commissionFor db d price } else u,
                 offers := db.offers ++ [mkOffer oid did pid msg price est] }
               (mkOffer oid did pid msg price est)
               (commissionFor db d price) (provider.balance - commissionFor db d price)) := by
  unfold createOffer
  rw [hd]

/-! ## Claims C1 and C2: the offer-creation contract and the commission -/

/-- Claim C1: the POST /api/offers handler checks its preconditions in
order — demand exists (else 404), demand ACTIVE (else 400), no prior offer
by this provider on this demand (else 400), provider exists (else 404),
balance at least the commission (else 400 carrying both amounts rounded to
2 decimals) — and when all hold, one atomic state update decrements the
provider's balance by exactly the commission and appends the offer row
with isApproved = true. -/
theorem C1_create_offer_contract (db : DB) (pid did oid : Ident) (price : ℚ)
    (msg : Option String) (est : String) :
    ((¬ ∃ d ∈ db.demands, d.id = did) →
      createOffer db pid did price msg est oid = .failure 404 .demandNotFound)
    ∧ ∀ d, findDemand db did = some d →
        (d.status ≠ .ACTIVE →
          createOffer db pid did price msg est oid = .failure 400 .inactiveDemand)
        ∧ (d.status = .ACTIVE →
            ((∃ o ∈ db.offers, o.demandId = did ∧ o.providerId = pid) →
              createOffer db pid did price msg est oid = .failure 400 .duplicateOffer)
            ∧ ((¬ ∃ o ∈ db.offers, o.demandId = did ∧ o.providerId = pid) →
                ((¬ ∃ u ∈ db.users, u.id = pid) →
                  createOffer db pid did price msg est oid = .failure 404 .providerNotFound)
                ∧ ∀ prov, findUser db pid = some prov →
                    (prov.balance < commissionFor db d price →
                      createOffer db pid did price msg est oid
                        = .failure 400 (.insufficientBalance
                            (toFixed2 (commissionFor db d price)) (toFixed2 prov.balance)))
                    ∧ (commissionFor db d price ≤ prov.balance →
                        ∃ db2,
                          createOffer db pid did price msg est oid
                            = .success db2 (mkOffer oid did pid msg price est)
                                (commissionFor db d price)
                                (prov.balance - commissionFor db d price)
                          ∧ findUser db2 pid
                              = some { prov with balance := prov.balance - commissionFor db d price }
                          ∧ db2.offers = db.offers ++ [mkOffer oid did pid msg price est]
                          ∧ (mkOffer oid did pid msg price est).isApproved = true
                          ∧ db2.demands = db.demands
                          ∧ db2.notifications = db.notifications))) := by
  constructor
  · intro hno
    have hfd : findDemand db did = none := by
      unfold findDemand
      rw [List.find?_eq_none]
      intro x hx
      simp only [beq_iff_eq]
      exact fun h => hno ⟨x, hx, h⟩
    unfold createOffer
    rw [hfd]
  · intro d hd
    have hbr := createOffer_found db pid did oid price msg est d hd
    refine ⟨fun hst => ?_, fun hst => ⟨fun hdup => ?_, fun hnodup => ⟨fun hnoprov => ?_, ?_⟩⟩⟩
    · rw [hbr, if_pos hst]
    · obtain ⟨o, ho, h1, h2⟩ := hdup
      have hsome : (db.offers.find? (fun o => o.demandId == did && o.providerId == pid)).isSome := by
        rw [List.find?_isSome]
        exact ⟨o, ho, by simp [h1, h2]⟩
      obtain ⟨o2, ho2⟩ := Option.isSome_iff_exists.mp hsome
      rw [hbr, if_neg (fun h => h hst), ho2]
    · have hfind : db.offers.find? (fun o => o.demandId == did && o.providerId == pid) = none := by
        rw [List.find?_eq_none]
        intro o ho
        simp only [Bool.and_eq_true, beq_iff_eq, not_and]
        exact fun h1 h2 => absurd ⟨o, ho, h1, h2⟩ hnodup
      have hfu : findUser db pid = none := by
        unfold findUser
        rw [List.find?_eq_none]
        intro u hu
        simp only [beq_iff_eq]
        exact fun h => hnoprov ⟨u, hu, h⟩
      rw [hbr, if_neg (fun h => h hst), hfind, hfu]
    · intro prov hprov
      have hfind : db.offers.find? (fun o => o.demandId == did && o.providerId == pid) = none := by
        rw [List.find?_eq_none]
        intro o ho
        simp only [Bool.and_eq_true, beq_iff_eq, not_and]
        exact fun h1 h2 => absurd ⟨o, ho, h1, h2⟩ hnodup
      refine ⟨fun hlt => ?_, fun hle => ?_⟩
      · rw [hbr]
        simp only [hfind, hprov, if_neg (not_not_intro hst), if_pos hlt]
      · refine ⟨{ db with
            users := db.users.map fun u =>
              if u.id == pid then { u with balance := u.balance - commissionFor db d price } else u,
            offers := db.offers ++ [mkOffer oid did pid msg price est] }, ?_, ?_, rfl, rfl, rfl, rfl⟩
        · rw [hbr]
          simp only [hfind, hprov, if_neg (not_not_intro hst), if_neg (not_lt.mpr hle)]
        · show (db.users.map fun u =>
              if u.id == pid then { u with balance := u.balance - commissionFor db d price } else u).find?
                (fun u => u.id == pid) = _
          rw [find?_map_update User.id
              (fun u => { u with balance := u.balance - commissionFor db d price }) pid
              (fun _ => rfl) db.users]
          show (findUser db pid).map _ = _
          rw [hprov]
          rfl

/-- The commission on the witness store: 7500 per-mille 10 gives 75. -/
lemma exCommission : commissionFor exDB exDemand 7500 = 75 := by
  have h1 : (findCategory exDB exDemand.categoryId).bind Category.commissionRate = some 10 := rfl
  unfold commissionFor
  rw [h1]
  show (7500 : ℚ) / 1000 * jsOr (some 10) 0 = 75
  rw [show jsOr (some 10) 0 = 10 from by unfold jsOr; norm_num]
  norm_num

/-- Witness for C1: on a concrete store the success branch fires, the
provider's balance 100 drops by the commission 75 and the offer row is
appended approved. -/
theorem C1_create_offer_contract_witness :
    ∃ db2,
      createOffer exDB 7 100 7500 none "2h" 500
        = .success db2 (mkOffer 500 100 7 none 7500 "2h")
            (commissionFor exDB exDemand 7500) (exProvider.balance - commissionFor exDB exDemand 7500)
      ∧ findUser db2 7 = some { exProvider with balance := exProvider.balance - commissionFor exDB exDemand 7500 }
      ∧ db2.offers = [mkOffer 500 100 7 none 7500 "2h"]
      ∧ commissionFor exDB exDemand 7500 = 75 := by
  have h := ((C1_create_offer_contract exDB 7 100 500 7500 none "2h").2
      exDemand rfl).2 rfl
  have h2 := (h.2 (by rintro ⟨o, ho, -⟩; simp [exDB] at ho)).2 exProvider rfl
  have h3 := h2.2 (by
    rw [exCommission]
    show (75 : ℚ) ≤ 100
    norm_num)
  obtain ⟨db2, heq, hu, hoff, -, -, -⟩ := h3
  refine ⟨db2, heq, hu, ?_, exCommission⟩
  simpa [exDB] using hoff

/-- Claim C2: the commission charged on offer creation is
(price / 1000) * commissionRate, falling back to 0 when the demand's
category has no rate set; a successful creation debits the provider's
balance by exactly that amount. -/
theorem C2_commission_formula (db : DB) (pid did oid : Ident) (price : ℚ)
    (hp : 0 ≤ price) (d : Demand) (hd : findDemand db did = some d)
    (msg : Option String) (est : String) :
    (commissionFor db d price
      = price / 1000 * jsOr ((findCategory db d.categoryId).bind Category.commissionRate) 0)
    ∧ ((findCategory db d.categoryId).bind Category.commissionRate = none →
        commissionFor db d price = 0)
    ∧ ∀ db2 off comm newBal,
        createOffer db pid did price msg est oid = .success db2 off comm newBal →
          comm = commissionFor db d price
          ∧ ∀ prov, findUser db pid = some prov →
              findUser db2 pid = some { prov with balance := prov.balance - commissionFor db d price } := by
  refine ⟨rfl, ?_, ?_⟩
  · intro hr
    unfold commissionFor
    rw [hr]
    simp [jsOr]
  · intro db2 off comm newBal heq
    rw [createOffer_found db pid did oid price msg est d hd] at heq
    by_cases hst : d.status = .ACTIVE
    · rw [if_neg (not_not_intro hst)] at heq
      cases hfind : db.offers.find? (fun o => o.demandId == did && o.providerId == pid) with
      | some o =>
        simp only [hfind] at heq
        exact absurd heq (by simp)
      | none =>
        cases hfu : findUser db pid with
        | none =>
          simp only [hfind, hfu] at heq
          exact absurd heq (by simp)
        | some prov0 =>
          by_cases hlt : prov0.balance < commissionFor db d price
          · simp only [hfind, hfu, if_pos hlt] at heq
            exact absurd heq (by simp)
          · simp only [hfind, hfu, if_neg hlt, OfferCreateResult.success.injEq] at heq
            obtain ⟨hdb2, -, hcomm, -⟩ := heq
            refine ⟨hcomm.symm, fun prov hprov => ?_⟩
            rw [← hdb2]
            show (db.users.map fun u =>
                if u.id == pid then { u with balance := u.balance - commissionFor db d price } else u).find?
                  (fun u => u.id == pid) = _
            rw [find?_map_update User.id
                (fun u => { u with balance := u.balance - commissionFor db d price }) pid
                (fun _ => rfl) db.users]
            show (findUser db pid).map _ = _
            rw [hfu]
            injection hprov with hpp
            rw [hpp]
            rfl
    · rw [if_pos hst] at heq
      exact absurd heq (by simp)

/-- Witness for C2: price 7500 at per-mille rate 10 yields commission 75,
and the balance 100 drops to 25. -/
theorem C2_commission_formula_witness :
    commissionFor exDB exDemand 7500
        = 7500 / 1000 * jsOr ((findCategory exDB exDemand.categoryId).bind Category.commissionRate) 0
    ∧ commissionFor exDB exDemand 7500 = 75 := by
  have h := C2_commission_formula exDB 7 100 500 7500 (by norm_num) exDemand rfl none "2h"
  exact ⟨h.1, exCommission⟩

/-! ## Claim C3: the category closure used by the demand listing -/

lemma mem_dedupFirst : ∀ (l : List Ident) (x : Ident), x ∈ dedupFirst l ↔ x ∈ l := by
  intro l
  induction l using dedupFirst.induct with
  | case1 => intro x; rw [dedupFirst]
  | case2 y ys ih =>
    intro x
    rw [dedupFirst]
    simp only [List.mem_cons, ih, List.mem_filter]
    constructor
    · rintro (rfl | ⟨h1, -⟩)
      · exact Or.inl rfl
      · exact Or.inr h1
    · rintro (rfl | h1)
      · exact Or.inl rfl
      · by_cases he : x = y
        · exact Or.inl he
        · exact Or.inr ⟨h1, by simpa using he⟩

lemma nodup_dedupFirst : ∀ l : List Ident, (dedupFirst l).Nodup := by
  intro l
  induction l using dedupFirst.induct with
  | case1 => rw [dedupFirst]; exact List.nodup_nil
  | case2 y ys ih =>
    rw [dedupFirst]
    refine List.Nodup.cons (fun hmem => ?_) ih
    rw [mem_dedupFirst] at hmem
    simp at hmem

lemma mem_childIdsOf {cats : List Category} {cid x : Ident} :
    x ∈ childIdsOf cats cid ↔ isChildCat cats cid x := by
  unfold childIdsOf isChildCat
  simp only [List.mem_map, List.mem_filter]
  constructor
  · rintro ⟨c, ⟨hc, hp⟩, rfl⟩
    exact ⟨c, hc, rfl, by simpa using hp⟩
  · rintro ⟨c, hc, rfl, hp⟩
    exact ⟨c, ⟨hc, by simpa using hp⟩, rfl⟩

/-- What the recursive collector computes: exactly the ids reachable from
`c` by at most `fuel` child steps. -/
lemma mem_getAllChildCategoryIds (cats : List Category) :
    ∀ (fuel : Nat) (c x : Ident),
      x ∈ getAllChildCategoryIds cats fuel c ↔ ∃ n, n ≤ fuel ∧ reachN cats n c x := by
  intro fuel
  induction fuel with
  | zero =>
    intro c x
    simp only [getAllChildCategoryIds, List.mem_singleton]
    constructor
    · rintro rfl
      exact ⟨0, le_refl 0, rfl⟩
    · rintro ⟨n, hn, hr⟩
      have hn0 : n = 0 := Nat.le_zero.mp hn
      subst hn0
      exact hr
  | succ fuel ih =>
    intro c x
    simp only [getAllChildCategoryIds, List.mem_cons, List.mem_flatMap]
    constructor
    · rintro (rfl | ⟨m, hm, hx⟩)
      · exact ⟨0, Nat.zero_le _, rfl⟩
      · obtain ⟨n, hn, hr⟩ := (ih m x).mp hx
        exact ⟨n + 1, Nat.succ_le_succ hn, m, mem_childIdsOf.mp hm, hr⟩
    · rintro ⟨n, hn, hr⟩
      cases n with
      | zero => exact Or.inl hr
      | succ n =>
        obtain ⟨m, hchild, hr2⟩ := hr
        exact Or.inr ⟨m, mem_childIdsOf.mpr hchild, (ih m x).mpr ⟨n, Nat.le_of_succ_le_succ hn, hr2⟩⟩

/-- A ranking that strictly drops along every parent-to-child edge bounds
the length of every descending chain. -/
lemma reachN_le_of_rank (cats : List Category) (rank : Ident → Nat)
    (hstep : ∀ c ∈ cats, ∀ p, c.parentId = some p → rank c.id < rank p) :
    ∀ (n : Nat) (a b : Ident), reachN cats n a b → n + rank b ≤ rank a := by
  intro n
  induction n with
  | zero =>
    rintro a b rfl
    simp
  | succ n ih =>
    rintro a b ⟨m, ⟨c, hc, rfl, hp⟩, hr⟩
    have h1 : rank c.id < rank a := hstep c hc a hp
    have h2 : n + rank b ≤ rank c.id := ih c.id b hr
    omega

/-- Claim C3: for a provider with non-empty subscription list S, the
allowed-category list the GET /api/demands handler builds (and uses as its
`categoryId IN` filter) contains exactly S together with every transitive
descendant of a member of S, without duplicates. -/
theorem C3_category_closure (db : DB) (fuel : Nat) (u : User)
    (hprov : u.userType = .PROVIDER) (hS : u.categories ≠ [])
    (hfuel : ∀ (n : Nat) (a b : Ident), reachN db.categories n a b → n ≤ fuel) :
    (∀ x, x ∈ allowedCategoryIds db.categories fuel u.categories ↔
        ∃ s ∈ u.categories, descendant db.categories s x)
    ∧ (allowedCategoryIds db.categories fuel u.categories).Nodup
    ∧ (buildDemandWhere db (some u) ⟨none, none⟩ fuel).categoryIn
        = some (allowedCategoryIds db.categories fuel u.categories) := by
  refine ⟨fun x => ?_, nodup_dedupFirst _, ?_⟩
  · unfold allowedCategoryIds
    rw [mem_dedupFirst, List.mem_flatMap]
    constructor
    · rintro ⟨s, hs, hx⟩
      obtain ⟨n, -, hr⟩ := (mem_getAllChildCategoryIds db.categories fuel s x).mp hx
      exact ⟨s, hs, n, hr⟩
    · rintro ⟨s, hs, n, hr⟩
      exact ⟨s, hs, (mem_getAllChildCategoryIds db.categories fuel s x).mpr
        ⟨n, hfuel n s x hr, hr⟩⟩
  · unfold buildDemandWhere
    have hlen : u.categories.length > 0 := List.length_pos.mpr hS
    simp only [if_pos (And.intro hprov hlen)]

/-- Witness for C3 on the concrete tree A(1){B(2){D(4)}, C(3)} plus
unrelated E(5): subscribing to A alone allows exactly A, B, C and the
grandchild D, and excludes E. -/
theorem C3_category_closure_witness :
    (4 ∈ allowedCategoryIds exDB6.categories 2 [1])
    ∧ (5 ∉ allowedCategoryIds exDB6.categories 2 [1])
    ∧ (allowedCategoryIds exDB6.categories 2 [1]).Nodup := by
  have hfuel : ∀ (n : Nat) (a b : Ident), reachN exDB6.categories n a b → n ≤ 2 := by
    intro n a b hr
    have hstep : ∀ c ∈ exDB6.categories, ∀ p, c.parentId = some p → exRank c.id < exRank p := by
      intro c hc p hp
      fin_cases hc
      · exact absurd hp (by simp)
      · obtain rfl : p = 1 := by simpa using hp.symm
        decide
      · obtain rfl : p = 1 := by simpa using hp.symm
        decide
      · obtain rfl : p = 2 := by simpa using hp.symm
        decide
      · exact absurd hp (by simp)
    have hb := reachN_le_of_rank exDB6.categories exRank hstep n a b hr
    have hrk : exRank a ≤ 2 := by
      unfold exRank
      split
      · omega
      · split <;> omega
    omega
  have h := C3_category_closure exDB6 2 ⟨7, .PROVIDER, 0, 0, 0, [1]⟩ rfl (by simp) hfuel
  have hlist : allowedCategoryIds exDB6.categories 2 [1] = [1, 2, 4, 3] := by
    show dedupFirst _ = _
    rw [show ([1] : List Ident).flatMap (getAllChildCategoryIds exDB6.categories 2)
        = [1, 2, 4, 3] from rfl]
    simp [dedupFirst]
  refine ⟨?_, ?_, h.2.1⟩
  · exact (h.1 4).mpr ⟨1, by simp, 2, 2, ⟨⟨2, "B", some 1, none⟩, by simp [exDB6, exCats], rfl, rfl⟩,
      4, ⟨⟨4, "D", some 2, none⟩, by simp [exDB6, exCats], rfl, rfl⟩, rfl⟩
  · rw [hlist]
    decide

/-! ## Claims C4 and C5: the accept/reject endpoint and the status machine -/

/-- Claim C4: when the demand owner accepts an offer, the parent demand is
set to CLOSED and every other offer row is carried over unchanged — in
particular sibling PENDING offers keep status PENDING. -/
theorem C4_accept_closes_demand (db : DB) (callerId oid : Ident) (offer : Offer)
    (hoff : findOffer db oid = some offer)
    (demand : Demand) (hdem : findDemand db offer.demandId = some demand)
    (howner : demand.userId = callerId) :
    ∃ db2,
      updateOfferStatus db callerId oid .ACCEPTED
        = .success db2 { offer with status := .ACCEPTED }
      ∧ findDemand db2 offer.demandId = some { demand with status := .CLOSED }
      ∧ db2.offers
          = db.offers.map (fun o => if o.id == oid then { o with status := OfferStatus.ACCEPTED } else o)
      ∧ (∀ o ∈ db.offers, o.id ≠ oid → o ∈ db2.offers)
      ∧ db2.users = db.users := by
  have hcond : ¬(OfferStatus.ACCEPTED ≠ OfferStatus.ACCEPTED
      ∧ OfferStatus.ACCEPTED ≠ OfferStatus.REJECTED) := by simp
  refine ⟨{ db with
      offers := db.offers.map fun o =>
        if o.id == oid then { o with status := OfferStatus.ACCEPTED } else o,
      notifications := db.notifications ++ [⟨offer.providerId, "OFFER_STATUS"⟩],
      demands := db.demands.map fun d =>
        if d.id == offer.demandId then { d with status := DemandStatus.CLOSED } else d },
    ?_, ?_, rfl, ?_, rfl⟩
  · unfold updateOfferStatus
    simp [hoff, hdem, if_neg hcond, howner]
  · show (db.demands.map fun d =>
        if d.id == offer.demandId then { d with status := DemandStatus.CLOSED } else d).find?
          (fun d => d.id == offer.demandId) = _
    rw [find?_map_update Demand.id (fun d => { d with status := DemandStatus.CLOSED })
        offer.demandId (fun _ => rfl) db.demands]
    show (findDemand db offer.demandId).map _ = _
    rw [hdem]
    rfl
  · intro o ho hne
    exact List.mem_map.mpr ⟨o, ho, by simp [hne]⟩

/-- Witness for C4: accepting offer 1 on exDB4 closes demand 100 while the
sibling offer 2 stays PENDING. -/
theorem C4_accept_closes_demand_witness :
    ∃ db2,
      updateOfferStatus exDB4 10 1 .ACCEPTED
        = .success db2 ⟨1, 100, 7, none, 50, "1h", .ACCEPTED, false, true⟩
      ∧ demandStatusIn db2 100 = some .CLOSED
      ∧ offerStatusIn db2 2 = some .PENDING := by
  obtain ⟨db2, heq, hdem2, hoffers, -, -⟩ :=
    C4_accept_closes_demand exDB4 10 1 ⟨1, 100, 7, none, 50, "1h", .PENDING, false, true⟩
      rfl exDemand rfl rfl
  refine ⟨db2, heq, ?_, ?_⟩
  · unfold demandStatusIn
    rw [hdem2]
    rfl
  · unfold offerStatusIn findOffer
    rw [hoffers]
    rfl

/-- Counterexample to claim C5: the accept/reject endpoint never inspects
the offer's current status, so the demand owner can move an ACCEPTED offer
to REJECTED — an edge outside PENDING→ACCEPTED/REJECTED, ACCEPTED→COMPLETED. -/
theorem C5_counterexample :
    offerStatusIn exDB5 1 = some .ACCEPTED
    ∧ (updateResultDB (updateOfferStatus exDB5 10 1 .REJECTED)).bind (fun db => offerStatusIn db 1)
        = some .REJECTED := by
  exact ⟨rfl, rfl⟩

/-- Claim C5 amended: only the completion endpoint guards the source
state — it succeeds exactly from an ACCEPTED, not-yet-completed offer and
yields COMPLETED; the accept/reject endpoint writes the requested ACCEPTED
or REJECTED over any current status, and the admin update writes any
requested status over any current status, so REJECTED and COMPLETED are
not terminal under the exposed operations. -/
theorem C5_amended_status_machine (db : DB) (callerId oid : Ident) :
    (∀ db2 o2, completeOffer db callerId oid = .success db2 o2 →
      ∃ o, findOffer db oid = some o ∧ o.status = .ACCEPTED ∧ o.providerCompleted = false
        ∧ o2.status = .COMPLETED ∧ offerStatusIn db2 oid = some .COMPLETED)
    ∧ (∀ s db2 o2, updateOfferStatus db callerId oid s = .success db2 o2 →
        (s = .ACCEPTED ∨ s = .REJECTED) ∧ o2.status = s ∧ offerStatusIn db2 oid = some s)
    ∧ (∀ p db2 o2, adminUpdateOffer db oid p = .success db2 o2 →
        ∃ o, findOffer db oid = some o ∧ o2 = applyAdminPatch p o
          ∧ offerStatusIn db2 oid = some (applyAdminPatch p o).status) := by
  refine ⟨?_, ?_, ?_⟩
  · intro db2 o2 heq
    unfold completeOffer at heq
    cases hfo : findOffer db oid with
    | none =>
      simp only [hfo] at heq
      exact absurd heq (by simp)
    | some o =>
      simp only [hfo] at heq
      by_cases hcaller : o.providerId = callerId
      · rw [if_neg (not_not_intro hcaller)] at heq
        by_cases hstat : o.status = .ACCEPTED
        · rw [if_neg (not_not_intro hstat)] at heq
          by_cases hpc : o.providerCompleted
          · rw [if_pos hpc] at heq
            exact absurd heq (by simp)
          · rw [if_neg hpc] at heq
            cases hfd : findDemand db o.demandId with
            | none =>
              rw [hfd] at heq
              exact absurd heq (by simp)
            | some demand =>
              rw [hfd] at heq
              simp only [OfferUpdateResult.success.injEq] at heq
              obtain ⟨hdb2, ho2⟩ := heq
              refine ⟨o, rfl, hstat, Bool.not_eq_true _ ▸ hpc, by rw [← ho2], ?_⟩
              unfold offerStatusIn findOffer
              rw [← hdb2]
              show ((db.offers.map fun o => if o.id == oid then
                  { o with providerCompleted := true, status := OfferStatus.COMPLETED } else o).find?
                    (fun o => o.id == oid)).map Offer.status = _
              rw [find?_map_update Offer.id
                  (fun o => { o with providerCompleted := true, status := OfferStatus.COMPLETED })
                  oid (fun _ => rfl) db.offers]
              show ((findOffer db oid).map _).map _ = _
              rw [hfo]
              rfl
        · rw [if_pos hstat] at heq
          exact absurd heq (by simp)
      · rw [if_pos hcaller] at heq
        exact absurd heq (by simp)
  · intro s db2 o2 heq
    unfold updateOfferStatus at heq
    by_cases hval : s ≠ OfferStatus.ACCEPTED ∧ s ≠ OfferStatus.REJECTED
    · rw [if_pos hval] at heq
      exact absurd heq (by simp)
    · rw [if_neg hval] at heq
      have hsv : s = .ACCEPTED ∨ s = .REJECTED := by
        by_cases h1 : s = OfferStatus.ACCEPTED
        · exact Or.inl h1
        · exact Or.inr (by
            by_cases h2 : s = OfferStatus.REJECTED
            · exact h2
            · exact absurd ⟨h1, h2⟩ hval)
      cases hfo : findOffer db oid with
      | none =>
        simp only [hfo] at heq
        exact absurd heq (by simp)
      | some o =>
        simp only [hfo] at heq
        cases hfd : findDemand db o.demandId with
        | none =>
          simp only [hfd] at heq
          exact absurd heq (by simp)
        | some demand =>
          simp only [hfd] at heq
          by_cases howner : demand.userId = callerId
          · simp only [howner, beq_self_eq_true, Bool.not_true, Bool.false_eq_true,
              if_false, OfferUpdateResult.success.injEq] at heq
            obtain ⟨hdb2, ho2⟩ := heq
            refine ⟨hsv, by rw [← ho2], ?_⟩
            unfold offerStatusIn findOffer
            rw [← hdb2]
            by_cases hsA : s = OfferStatus.ACCEPTED
            · rw [if_pos hsA]
              show ((db.offers.map fun o => if o.id == oid then { o with status := s } else o).find?
                  (fun o => o.id == oid)).map Offer.status = _
              rw [find?_map_update Offer.id (fun o => { o with status := s }) oid
                  (fun _ => rfl) db.offers]
              show ((findOffer db oid).map _).map _ = _
              rw [hfo]
              rfl
            · rw [if_neg hsA]
              show ((db.offers.map fun o => if o.id == oid then { o with status := s } else o).find?
                  (fun o => o.id == oid)).map Offer.status = _
              rw [find?_map_update Offer.id (fun o => { o with status := s }) oid
                  (fun _ => rfl) db.offers]
              show ((findOffer db oid).map _).map _ = _
              rw [hfo]
              rfl
          · have hbe : (demand.userId == callerId) = false := by simpa using howner
            rw [hbe] at heq
            simp at heq
  · intro p db2 o2 heq
    unfold adminUpdateOffer at heq
    cases hfo : findOffer db oid with
    | none =>
      simp only [hfo] at heq
      exact absurd heq (by simp)
    | some o =>
      simp only [hfo, OfferUpdateResult.success.injEq] at heq
      obtain ⟨hdb2, ho2⟩ := heq
      refine ⟨o, rfl, ho2.symm, ?_⟩
      unfold offerStatusIn findOffer
      rw [← hdb2]
      show ((db.offers.map fun o => if o.id == oid then applyAdminPatch p o else o).find?
          (fun o => o.id == oid)).map Offer.status = _
      rw [find?_map_update Offer.id (applyAdminPatch p) oid ?hid db.offers]
      case hid =>
        intro a
        unfold applyAdminPatch
        cases p.message <;> cases p.price <;> cases p.estimatedTime <;> cases p.status <;> rfl
      show ((findOffer db oid).map _).map _ = _
      rw [hfo]
      rfl

/-- Witness for C5 amended: on the ACCEPTED offer of exDB5, completion by
provider 7 yields COMPLETED, and (per the counterexample store) the owner
writing ACCEPTED again succeeds unconditionally. -/
theorem C5_amended_status_machine_witness :
    (updateResultDB (completeOffer exDB5 7 1)).bind (fun db => offerStatusIn db 1)
        = some OfferStatus.COMPLETED
    ∧ (updateResultDB (updateOfferStatus exDB5 10 1 .ACCEPTED)).bind (fun db => offerStatusIn db 1)
        = some OfferStatus.ACCEPTED := by
  have hc : completeOffer exDB5 7 1
      = .success exDB5c ⟨1, 100, 7, none, 50, "1h", .COMPLETED, true, true⟩ := rfl
  constructor
  · obtain ⟨o, -, -, -, -, hst⟩ := (C5_amended_status_machine exDB5 7 1).1 exDB5c
      ⟨1, 100, 7, none, 50, "1h", .COMPLETED, true, true⟩ hc
    rw [hc]
    simpa [updateResultDB] using hst
  · obtain ⟨db2, o2, hu⟩ : ∃ db2 o2, updateOfferStatus exDB5 10 1 .ACCEPTED = .success db2 o2 :=
      ⟨_, _, rfl⟩
    obtain ⟨-, -, hst⟩ := (C5_amended_status_machine exDB5 10 1).2.1 .ACCEPTED db2 o2 hu
    rw [hu]
    simpa [updateResultDB] using hst

/-! ## Claims C6, C7, C10: demand visibility gates -/

/-- Counterexample to claim C6: the single-demand fetch checks only the
directly subscribed category ids, not their closure — provider 7 is
subscribed to category 1, demand 100 sits under its grandchild 4, yet the
fetch answers 403 where the claim predicts visibility. -/
theorem C6_counterexample :
    descendant exDB6.categories 1 4
    ∧ getDemandById exDB6 7 100 = .failure 403 .noPermission := by
  constructor
  · exact ⟨2, 2, ⟨⟨2, "B", some 1, none⟩, by simp [exDB6, exCats], rfl, rfl⟩,
      4, ⟨⟨4, "D", some 2, none⟩, by simp [exDB6, exCats], rfl, rfl⟩, rfl⟩
  · rfl

/-- Claim C6 amended: for an approved demand and a requester with at least
one subscription, GET /api/demands/:id rejects with 403 exactly when the
demand's categoryId is not among the requester's *directly* subscribed
category ids — no descendant closure is applied, so a demand under a
descendant of a subscribed category is rejected. -/
theorem C6_amended_direct_subscription_gate (db : DB) (rid did : Ident) (d : Demand)
    (hd : findDemand db did = some d) (happ : d.isApproved = true)
    (u : User) (hu : findUser db rid = some u) (hsub : u.categories ≠ []) :
    (d.categoryId ∉ u.categories → getDemandById db rid did = .failure 403 .noPermission)
    ∧ (d.categoryId ∈ u.categories → getDemandById db rid did = .success d) := by
  have hlen : u.categories.length > 0 := List.length_pos.mpr hsub
  constructor
  · intro hnot
    unfold getDemandById
    simp only [hd, happ, hu, Bool.not_true, Bool.false_eq_true, if_false,
      if_pos (And.intro hlen hnot)]
  · intro hmem
    unfold getDemandById
    simp only [hd, happ, hu, Bool.not_true, Bool.false_eq_true, if_false,
      if_neg (show ¬(u.categories.length > 0 ∧ d.categoryId ∉ u.categories) from
        fun hc => hc.2 hmem)]

/-- Witness for C6 amended: requester 7 (subscribed to 1 only) is rejected
on the demand under category 4; requester 8 (subscribed to 4) sees it. -/
theorem C6_amended_direct_subscription_gate_witness :
    getDemandById exDB6 7 100 = .failure 403 .noPermission
    ∧ getDemandById exDB6 8 100 = .success ⟨100, 10, 4, .ACTIVE, true⟩ := by
  constructor
  · exact (C6_amended_direct_subscription_gate exDB6 7 100 ⟨100, 10, 4, .ACTIVE, true⟩ rfl rfl
      ⟨7, .PROVIDER, 0, 0, 0, [1]⟩ rfl (by simp)).1 (by decide)
  · exact (C6_amended_direct_subscription_gate exDB6 8 100 ⟨100, 10, 4, .ACTIVE, true⟩ rfl rfl
      ⟨8, .PROVIDER, 0, 0, 0, [4]⟩ rfl (by simp)).2 (by decide)

/-- Claim C7: a provider with zero subscribed categories gets no category
filter at all in the demand listing — the assembled `where` has no
categoryId constraint, only isApproved = true plus the explicit query
filters, so demands of every category are listed. -/
theorem C7_zero_subscription_fallback (db : DB) (uid : Ident) (u : User) (fuel : Nat)
    (hu : findUser db uid = some u) (hprov : u.userType = .PROVIDER)
    (hempty : u.categories = []) (qs : Option DemandStatus) :
    (buildDemandWhere db (some u) ⟨none, qs⟩ fuel).categoryIn = none
    ∧ (buildDemandWhere db (some u) ⟨none, qs⟩ fuel).isApproved = some true
    ∧ listDemands db uid ⟨none, qs⟩ fuel
        = db.demands.filter (fun d =>
            (match qs with | none => true | some s => d.status == s) && d.isApproved) := by
  have hcond : ¬(u.userType = UserType.PROVIDER ∧ u.categories.length > 0) := by
    rintro ⟨-, hlen⟩
    rw [hempty] at hlen
    simp at hlen
  have hw : buildDemandWhere db (some u) ⟨none, qs⟩ fuel = ⟨none, qs, some true⟩ := by
    unfold buildDemandWhere
    simp only [if_neg hcond, if_pos hprov]
  refine ⟨by rw [hw], by rw [hw], ?_⟩
  unfold listDemands
  rw [hu, hw]
  apply List.filter_congr
  intro d hd
  cases qs <;> simp [demandMatches]

/-- Witness for C7: provider 7 of exDB7 has no subscriptions and sees the
approved demands under the unrelated categories 1 and 5 (and not the
unapproved one). -/
theorem C7_zero_subscription_fallback_witness :
    listDemands exDB7 7 ⟨none, none⟩ 0
      = [⟨100, 10, 1, .ACTIVE, true⟩, ⟨101, 10, 5, .ACTIVE, true⟩] := by
  have h := C7_zero_subscription_fallback exDB7 7 ⟨7, .PROVIDER, 0, 0, 0, []⟩ 0 rfl rfl rfl none
  rw [h.2.2]
  rfl

/-- Claim C10: an unapproved demand is refused with 403 by the
single-demand fetch for every requester — the approval gate precedes any
ownership or role consideration, so even the demand's own receiver is
refused. -/
theorem C10_approval_gate (db : DB) (rid did : Ident) (d : Demand)
    (hd : findDemand db did = some d) (happ : d.isApproved = false) :
    getDemandById db rid did = .failure 403 .notApprovedYet := by
  unfold getDemandById
  simp only [hd, happ, Bool.not_false, if_true]

/-- Witness for C10: the owner (user 10) of the unapproved demand 100 gets
403 fetching their own demand. -/
theorem C10_approval_gate_witness :
    getDemandById exDB10 10 100 = .failure 403 .notApprovedYet :=
  C10_approval_gate exDB10 10 100 ⟨100, 10, 1, .ACTIVE, false⟩ rfl rfl

/-! ## Claim C8: the post-transaction notification insert -/

/-- On the witness store the offer-creation transaction commits,
producing `exDBpost`. -/
lemma exCreateOffer_eq :
    createOffer exDB 7 100 7500 none "2h" 500
      = .success exDBpost (mkOffer 500 100 7 none 7500 "2h")
          (commissionFor exDB exDemand 7500) (100 - commissionFor exDB exDemand 7500) := by
  rw [createOffer_found exDB 7 100 500 7500 none "2h" exDemand rfl]
  have hfind : exDB.offers.find? (fun o => o.demandId == 100 && o.providerId == 7) = none := rfl
  have hfu : findUser exDB 7 = some exProvider := rfl
  have hnotlt : ¬(exProvider.balance < commissionFor exDB exDemand 7500) := by
    rw [exCommission]
    show ¬((100 : ℚ) < 75)
    norm_num
  simp only [hfind, hfu, if_neg (not_not_intro (rfl : exDemand.status = .ACTIVE)),
    if_neg hnotlt]
  rfl

/-- Counterexample to claim C8: with every precondition met, a failing
notification insert after the committed transaction still surfaces as an
error response (500), not the claimed 201 — while the committed state
(balance debited, offer row inserted) stands. -/
theorem C8_counterexample :
    (createOfferFlow exDB 7 100 7500 none "2h" 500 false).2 = .error 500 .internal
    ∧ (createOfferFlow exDB 7 100 7500 none "2h" 500 false).1 = exDBpost
    ∧ findUser exDBpost 7
        = some ⟨7, .PROVIDER, (100 : ℚ) - commissionFor exDB exDemand 7500, 0, 0, []⟩
    ∧ exDBpost.offers = [mkOffer 500 100 7 none 7500 "2h"] := by
  have h : createOfferFlow exDB 7 100 7500 none "2h" 500 false
      = (exDBpost, .error 500 .internal) := by
    unfold createOfferFlow
    rw [exCreateOffer_eq]
    simp only [show findDemand exDB 100 = some exDemand from rfl, Bool.false_eq_true, if_false]
  exact ⟨by rw [h], by rw [h], rfl, rfl⟩

/-- Claim C8 amended: once the offer-creation transaction has committed, a
failing notification insert leaves the committed balance/offer state fully
intact — the flow returns the very state the transaction produced — but
the client receives a 500 error response instead of the 201; when the
insert succeeds the client does get the 201 with the created offer. -/
theorem C8_amended_commit_preserved (db : DB) (pid did oid : Ident) (price : ℚ)
    (msg : Option String) (est : String) (db2 : DB) (off : Offer) (comm newBal : ℚ)
    (hsucc : createOffer db pid did price msg est oid = .success db2 off comm newBal)
    (d : Demand) (hd : findDemand db did = some d) :
    createOfferFlow db pid did price msg est oid false = (db2, .error 500 .internal)
    ∧ createOfferFlow db pid did price msg est oid true
        = ({ db2 with notifications := db2.notifications ++ [⟨d.userId, "NEW_OFFER"⟩] },
            .created off comm newBal) := by
  constructor <;>
    · unfold createOfferFlow
      simp only [hsucc, hd, Bool.false_eq_true, if_false, if_true]

/-- Witness for C8 amended, on the concrete committed transaction of exDB. -/
theorem C8_amended_commit_preserved_witness :
    createOfferFlow exDB 7 100 7500 none "2h" 500 false = (exDBpost, .error 500 .internal)
    ∧ createOfferFlow exDB 7 100 7500 none "2h" 500 true
        = ({ exDBpost with notifications := [⟨10, "NEW_OFFER"⟩] },
            .created (mkOffer 500 100 7 none 7500 "2h")
              (commissionFor exDB exDemand 7500) (100 - commissionFor exDB exDemand 7500)) := by
  have h := C8_amended_commit_preserved exDB 7 100 500 7500 none "2h" exDBpost
    (mkOffer 500 100 7 none 7500 "2h")
    (commissionFor exDB exDemand 7500) (100 - commissionFor exDB exDemand 7500)
    exCreateOffer_eq exDemand rfl
  exact ⟨h.1, h.2⟩

/-! ## Claim C9: rating recomputation on review create/delete -/

/-- Looking the target user up after the rating write yields exactly the
written pair. -/
lemma userRatingIn_setUserRating (db : DB) (uid : Ident) (r : ℚ) (c : Nat) :
    userRatingIn (setUserRating db uid r c) uid = (findUser db uid).map (fun _ => (r, c)) := by
  unfold userRatingIn setUserRating findUser
  show ((db.users.map fun u =>
      if u.id == uid then { u with rating := r, ratingCount := c } else u).find?
        (fun u => u.id == uid)).map (fun u => (u.rating, u.ratingCount)) = _
  rw [find?_map_update User.id (fun u => { u with rating := r, ratingCount := c }) uid
      (fun _ => rfl) db.users]
  cases h : db.users.find? (fun u => u.id == uid) with
  | none => rfl
  | some u => rfl

/-- The rating write leaves the review table unchanged. -/
lemma reviewsFor_setUserRating (db : DB) (uid uid2 : Ident) (r : ℚ) (c : Nat) :
    reviewsFor (setUserRating db uid r c) uid2 = reviewsFor db uid2 := rfl

/-- Replacing the review table leaves user lookup unchanged. -/
lemma findUser_setReviews (db : DB) (uid : Ident) (rs : List Review) :
    findUser { db with reviews := rs } uid = findUser db uid := rfl

/-- Claim C9: creating a review recomputes the reviewed user's rating as
the arithmetic mean of all their received ratings and sets ratingCount to
their count; deleting one does the same, with rating 0 and count 0 when no
review remains. -/
theorem C9_rating_recomputation (db : DB) :
    (∀ reviewerId reviewedUserId rating newId db2,
      createReview db reviewerId reviewedUserId rating newId = .success db2 →
        userRatingIn db2 reviewedUserId
          = (findUser db reviewedUserId).map (fun _ =>
              (ratingSum (reviewsFor db2 reviewedUserId) / ((reviewsFor db2 reviewedUserId).length : ℚ),
               (reviewsFor db2 reviewedUserId).length)))
    ∧ (∀ rid rev db2, db.reviews.find? (fun r => r.id == rid) = some rev →
        deleteReview db rid = .success db2 →
          (reviewsFor db2 rev.reviewedUserId = [] →
            userRatingIn db2 rev.reviewedUserId
              = (findUser db rev.reviewedUserId).map (fun _ => ((0 : ℚ), 0)))
          ∧ (reviewsFor db2 rev.reviewedUserId ≠ [] →
            userRatingIn db2 rev.reviewedUserId
              = (findUser db rev.reviewedUserId).map (fun _ =>
                  (ratingSum (reviewsFor db2 rev.reviewedUserId) / ((reviewsFor db2 rev.reviewedUserId).length : ℚ),
                   (reviewsFor db2 rev.reviewedUserId).length)))) := by
  constructor
  · intro reviewerId reviewedUserId rating newId db2 heq
    unfold createReview at heq
    by_cases hself : reviewerId = reviewedUserId
    · rw [if_pos (by simpa using hself)] at heq
      exact absurd heq (by simp)
    · rw [if_neg (by simpa using hself)] at heq
      cases hfu : findUser db reviewedUserId with
      | none =>
        simp only [hfu] at heq
        exact absurd heq (by simp)
      | some target =>
        simp only [hfu] at heq
        cases hdup : db.reviews.find?
            (fun r => r.reviewerId == reviewerId && r.reviewedUserId == reviewedUserId) with
        | some r0 =>
          simp only [hdup] at heq
          exact absurd heq (by simp)
        | none =>
          simp only [hdup, ReviewResult.success.injEq] at heq
          rw [← heq, userRatingIn_setUserRating, reviewsFor_setUserRating, findUser_setReviews, hfu]
  · intro rid rev db2 hfr heq
    unfold deleteReview at heq
    simp only [hfr, ReviewResult.success.injEq] at heq
    constructor
    · intro hnone
      rw [← heq, reviewsFor_setUserRating] at hnone
      have hlen0 : (reviewsFor { db with reviews := db.reviews.filter fun r => r.id ≠ rid }
          rev.reviewedUserId).length = 0 := by
        rw [hnone]
        rfl
      rw [← heq, userRatingIn_setUserRating, findUser_setReviews]
      cases hfu : findUser db rev.reviewedUserId with
      | none => rfl
      | some target =>
        simp only [Option.map_some', Option.some.injEq]
        rw [hlen0]
        norm_num
    · intro hsome
      rw [← heq, reviewsFor_setUserRating] at hsome
      have hlenpos : (reviewsFor { db with reviews := db.reviews.filter fun r => r.id ≠ rid }
          rev.reviewedUserId).length > 0 :=
        List.length_pos.mpr hsome
      rw [← heq, userRatingIn_setUserRating, reviewsFor_setUserRating, findUser_setReviews]
      cases hfu : findUser db rev.reviewedUserId with
      | none => rfl
      | some target =>
        simp only [Option.map_some', Option.some.injEq]
        rw [if_pos hlenpos]

/-- Witness for C9: ratings [5,3,4] for user 20 yield mean 4 and count 3;
deleting the rating-3 review yields mean 9/2 = 4.5 and count 2. -/
theorem C9_rating_recomputation_witness :
    createReview exDB9 32 20 4 203 = .success exDB9c
    ∧ userRatingIn exDB9c 20 = some (4, 3)
    ∧ deleteReview exDB9c 202 = .success exDB9d
    ∧ userRatingIn exDB9d 20 = some (9 / 2, 2) := by
  have hc1 : createReview exDB9 32 20 4 203 = .success exDB9c := by
    unfold createReview
    norm_num [show exDB9.reviews.find? (fun r => r.reviewerId == 32 && r.reviewedUserId == 20) = none from rfl,
      findUser, setUserRating, reviewsFor, ratingSum, exDB9, exDB9c]
  have hd1 : deleteReview exDB9c 202 = .success exDB9d := by
    unfold deleteReview
    norm_num [show exDB9c.reviews.find? (fun r => r.id == 202) = some ⟨202, 31, 20, 3⟩ from rfl,
      findUser, setUserRating, reviewsFor, ratingSum, exDB9c, exDB9d]
  have h2 : userRatingIn exDB9c 20 = some (4, 3) := by
    rw [(C9_rating_recomputation exDB9).1 32 20 4 203 exDB9c hc1]
    norm_num [reviewsFor, ratingSum, findUser, exDB9, exDB9c]
  have h4 : userRatingIn exDB9d 20 = some (9 / 2, 2) := by
    have h := ((C9_rating_recomputation exDB9c).2 202 ⟨202, 31, 20, 3⟩ exDB9d rfl hd1).2
      (by simp [reviewsFor, exDB9d])
    rw [h]
    norm_num [reviewsFor, ratingSum, findUser, exDB9c, exDB9d]
  exact ⟨hc1, h2, hd1, h4⟩

end Gusto
